import Mathlib

/-!
Verification of the `Plot` widget of `termui` (`src/v3/widgets/plot.go`).

Numeric `float64` values are modelled by exact rationals `ℚ`; the widget's
bound fields, which are initialized to `math.Inf(±1)` and combined only with
`math.Min`/`math.Max`, are modelled by `ℚ` extended with a bottom and a top
element (`EFloat` below), whose lattice `min`/`max` agree with `math.Min` /
`math.Max` on every value that can occur here (no NaNs arise).  Go's
`float64 → int` conversion truncates toward zero, modelled by `goTrunc`.
Code that can panic with "index out of range" is modelled in the `Except`
monad, the error value marking the panic.
-/

/-- Extended rationals: the model of `float64` values that may be `±Inf`. -/
abbrev EFloat := WithBot (WithTop ℚ)

/-- Embed a finite value into `EFloat`. -/
def EFloat.ofQ (q : ℚ) : EFloat := ((q : WithTop ℚ) : EFloat)

/-- Constant from plot.go line 40. -/
def xAxisLabelsHeight : ℤ := 1

/-- Constant from plot.go line 41. -/
def yAxisLabelsWidth : ℤ := 4

/-- Constant from plot.go line 42. -/
def xAxisLabelsGap : ℤ := 2

/-- Constant from plot.go line 43. -/
def yAxisLabelsGap : ℤ := 1

/-- The chart kind of a `Plot` (plot.go lines 46-51). -/
inductive PlotType where
  | LineChart : PlotType
  | ScatterPlot : PlotType
deriving DecidableEq, Repr

/-- The marker resolution of a `Plot` (plot.go lines 53-58). -/
inductive PlotMarker where
  | MarkerBraille : PlotMarker
  | MarkerDot : PlotMarker
deriving DecidableEq, Repr

/-- Colors are opaque integers here; their values never matter to the claims. -/
abbrev Color := ℤ

/-- The state of the `Plot` widget (plot.go lines 19-37) that the verified
claims depend on.  `Block`, `AxesColor`, `DotMarkerRune` and `DrawDirection`
carry no information used by any claim and are omitted.  The field named
`PlotType` in Go is `plotKind` here because a Lean structure field cannot
shadow the name of its own type. -/
structure Plot where
  Data : List (List ℚ)
  DataLabels : List String
  MaxVal : EFloat
  MinVal : EFloat
  XMaxVal : EFloat
  XMinVal : EFloat
  LineColors : List Color
  ShowAxes : Bool
  Marker : PlotMarker
  plotKind : PlotType
  HorizontalScale : ℤ
deriving DecidableEq, Repr

/-- Modelled from the spec: the default palette comes from `Theme.Plot.Lines`
in the `v3` package, outside this directory (§6: "supplies default color lists
when none are configured").  The concrete values are immaterial to every
claim. -/
def themePlotLines : List Color := [2, 3, 4, 5, 6, 7, 8]

/-- Constructor `NewPlot` (plot.go lines 66-83): infinite sentinels for all
four bound fields, braille line chart with axes shown, scale 1. -/
def NewPlot : Plot :=
  { Data := []
    DataLabels := []
    MaxVal := ⊥
    MinVal := ⊤
    XMaxVal := ⊥
    XMinVal := ⊤
    LineColors := themePlotLines
    ShowAxes := true
    Marker := PlotMarker.MarkerBraille
    plotKind := PlotType.LineChart
    HorizontalScale := 1 }

/-- Modelled from the spec: `MaxFloat64` lives in the `v3` package, outside
this directory; on the finite values reaching the clamp sites it is the
rational maximum (§4.2: "the `max(1, range)` clamp"). -/
def MaxFloat64 (a b : ℚ) : ℚ := max a b

/-- Modelled from the spec: `GetMaxFloat64From2dSlice` lives in the `v3`
package, outside this directory.  §4.1: it "computes the dataset's ...
maximum value across all series", and "an empty dataset is a no-op", so the
fold starts from the identity of `max`. -/
def GetMaxFloat64From2dSlice (data : List (List ℚ)) : EFloat :=
  data.foldl (fun acc line => line.foldl (fun a v => max a (EFloat.ofQ v)) acc) ⊥

/-- Modelled from the spec: `GetMinFloat64From2dSlice` lives in the `v3`
package, outside this directory.  §4.1: it "computes the dataset's minimum
... value across all series", and "an empty dataset is a no-op", so the fold
starts from the identity of `min`. -/
def GetMinFloat64From2dSlice (data : List (List ℚ)) : EFloat :=
  data.foldl (fun acc line => line.foldl (fun a v => min a (EFloat.ofQ v)) acc) ⊤

/-- Modelled from the spec: `SelectColor` lives in the `v3` package, outside
this directory; §3: colors are "assigned to series by index, cycling if fewer
colors than series". -/
def SelectColor (colors : List Color) (index : ℕ) : Color :=
  colors.getD (index % colors.length) 0

/-- Go's `float64 → int` conversion: truncation toward zero. -/
def goTrunc (q : ℚ) : ℤ := if 0 ≤ q then ⌊q⌋ else ⌈q⌉

/-- The height mapping shared by every render path
(plot.go lines 101, 110, 137, 150):
`int((y - minVal) / MaxFloat64(1, maxVal-minVal) * float64(drawArea.Dy()-1))`. -/
def cellHeight (minVal maxVal y : ℚ) (dy : ℤ) : ℤ :=
  goTrunc ((y - minVal) / MaxFloat64 1 (maxVal - minVal) * ((dy - 1 : ℤ) : ℚ))

/-- A sub-cell or cell position, Go's `image.Point`. -/
structure Pt where
  x : ℤ
  y : ℤ
deriving DecidableEq, Repr

example : cellHeight 0 3 3 4 = 3 := by norm_num [cellHeight, goTrunc, MaxFloat64]
example : cellHeight 0 3 0 4 = 0 := by norm_num [cellHeight, goTrunc, MaxFloat64]
example : cellHeight 0 (1/2) (1/2) 5 = 2 := by norm_num [cellHeight, goTrunc, MaxFloat64]
example : max (⊥ : EFloat) (EFloat.ofQ 5) = EFloat.ofQ 5 := by decide
example : min (⊤ : EFloat) (EFloat.ofQ 5) = EFloat.ofQ 5 := by decide
example : GetMinFloat64From2dSlice [[5, 2], [7]] = EFloat.ofQ 2 := by decide

/-- The per-series inner loop of `renderBraille`'s `LineChart` case
(plot.go lines 107-123): iterates over `line[1:]` with running
`previousHeight`, emitting one sub-cell segment per element.  `j` is the
loop index over `line[1:]`. -/
def segsLoop (minX maxY scale : ℤ) (minVal maxVal : ℚ) (dy : ℤ) :
    ℕ → ℤ → List ℚ → List (Pt × Pt)
  | _, _, [] => []
  | j, previousHeight, val :: rest =>
    let height := cellHeight minVal maxVal val dy
    (⟨(minX + (j : ℤ) * scale) * 2, (maxY - previousHeight - 1) * 4⟩,
     ⟨(minX + ((j : ℤ) + 1) * scale) * 2, (maxY - height - 1) * 4⟩)
      :: segsLoop minX maxY scale minVal maxVal dy (j + 1) height rest

/-- One series of `renderBraille`'s `LineChart` case (plot.go lines 106-123):
`previousHeight` is seeded from `line[1]`, which panics (error) when the
series has fewer than two samples; the loop then runs over `line[1:]`. -/
def seriesSegs (minX maxY scale : ℤ) (minVal maxVal : ℚ) (dy : ℤ)
    (line : List ℚ) : Except String (List (Pt × Pt)) :=
  match line with
  | _ :: v1 :: rest =>
    Except.ok (segsLoop minX maxY scale minVal maxVal dy 0
      (cellHeight minVal maxVal v1 dy) (v1 :: rest))
  | _ => Except.error "index out of range"

/-- The series loop of `renderBraille`'s `LineChart` case (plot.go
lines 106-123), carrying the series index `i` used for the color. -/
def renderLineLoop (minX maxY scale : ℤ) (minVal maxVal : ℚ) (dy : ℤ)
    (colors : List Color) : ℕ → List (List ℚ) →
    Except String (List (Color × List (Pt × Pt)))
  | _, [] => Except.ok []
  | i, line :: rest =>
    match seriesSegs minX maxY scale minVal maxVal dy line with
    | Except.error e => Except.error e
    | Except.ok segs =>
      match renderLineLoop minX maxY scale minVal maxVal dy colors (i + 1) rest with
      | Except.error e => Except.error e
      | Except.ok L => Except.ok ((SelectColor colors i, segs) :: L)

/-- The `LineChart` case of `renderBraille` (plot.go lines 106-123): the
segments handed to `canvas.SetLine`, per series with its color.  The draw
area is passed as its scalar components `minX`, `maxY`, `dy = Dy()`. -/
def renderBrailleLine (minX maxY scale : ℤ) (minVal maxVal : ℚ) (dy : ℤ)
    (colors : List Color) (data : List (List ℚ)) :
    Except String (List (Color × List (Pt × Pt))) :=
  renderLineLoop minX maxY scale minVal maxVal dy colors 0 data

/-- The point loop of `renderBraille`'s `ScatterPlot` case (plot.go
lines 99-105): iterates over `Data[0]` with index `i`, reading `Data[1][i]`
(`ys`), which panics (error) when `Data[1]` is missing or too short. -/
def scatterLoop (minX maxY scale : ℤ) (xMinVal xMaxVal minVal maxVal : ℚ)
    (dx dy : ℤ) (color : Color) (ys : Option (List ℚ)) :
    ℕ → List ℚ → Except String (List (Pt × Color))
  | _, [] => Except.ok []
  | i, x :: xs =>
    match ys.bind fun l => l.get? i with
    | none => Except.error "index out of range"
    | some y =>
      let height := cellHeight minVal maxVal y dy
      let xDx := MaxFloat64 1 (xMaxVal - xMinVal)
      let p : Pt :=
        ⟨(minX + goTrunc ((x - xMinVal) * ((scale * (dx - 1) : ℤ) : ℚ) / xDx)) * 2,
         (maxY - height - 1) * 4⟩
      match scatterLoop minX maxY scale xMinVal xMaxVal minVal maxVal dx dy
          color ys (i + 1) xs with
      | Except.error e => Except.error e
      | Except.ok L => Except.ok ((p, color) :: L)

/-- The `ScatterPlot` case of `renderBraille` (plot.go lines 98-105): the
points handed to `canvas.SetPoint`.  Evaluating `self.Data[0]` for the
`range` clause panics (error) when `Data` is empty; all points use palette
index 0.  The bound fields are passed as finite rationals, which is the only
way the claims exercise them. -/
def renderBrailleScatter (minX maxY scale : ℤ) (xMinVal xMaxVal minVal maxVal : ℚ)
    (dx dy : ℤ) (colors : List Color) (data : List (List ℚ)) :
    Except String (List (Pt × Color)) :=
  match data with
  | [] => Except.error "index out of range"
  | xs :: rest =>
    scatterLoop minX maxY scale xMinVal xMaxVal minVal maxVal dx dy
      (SelectColor colors 0) rest.head? 0 xs

/-- The y-axis label loop of `plotAxes` (plot.go lines 181-188):
`for i := 0; i*(yAxisLabelsGap+1) < self.Inner.Dy()-1; i++`, emitting the
row index `i`, the printed value
`float64(i)*verticalScale*(yAxisLabelsGap+1) + minVal`, and the cell row
`self.Inner.Max.Y - (i*(yAxisLabelsGap+1)) - 2`.  The loop advances `i` by
one each iteration and its bound is fixed, so it terminates; `fuel` is any
upper bound on the remaining iterations. -/
def yLabelLoop (minVal verticalScale : ℚ) (innerDy innerMaxY : ℤ) :
    ℕ → ℤ → List (ℤ × ℚ × ℤ)
  | 0, _ => []
  | fuel + 1, i =>
    if i * (yAxisLabelsGap + 1) < innerDy - 1 then
      (i, (i : ℚ) * verticalScale * (((yAxisLabelsGap : ℤ) : ℚ) + 1) + minVal,
        innerMaxY - i * (yAxisLabelsGap + 1) - 2)
        :: yLabelLoop minVal verticalScale innerDy innerMaxY fuel (i + 1)
    else []

/-- The y-axis labels drawn by `plotAxes` (plot.go lines 180-188), with
`verticalScale := (maxVal - minVal) / float64(self.Inner.Dy()-xAxisLabelsHeight-1)`.
The fuel `innerDy.toNat + 1` exceeds the iteration count of the Go loop, so
the loop always stops at its own condition (proved in `yLabelLoop_mem`). -/
def yAxisLabels (minVal maxVal : ℚ) (innerDy innerMaxY : ℤ) : List (ℤ × ℚ × ℤ) :=
  yLabelLoop minVal
    ((maxVal - minVal) / ((innerDy - xAxisLabelsHeight - 1 : ℤ) : ℚ))
    innerDy innerMaxY (innerDy.toNat + 1) 0

/-- The x-axis label walk shared by both chart kinds of `plotAxes` (plot.go
lines 197-211 and 219-241): starting from column `x`, while
`x < innerMaxX - 1`, emit the chosen label (as its start column and width)
and advance `x` by `(len(label) + xAxisLabelsGap) * scale`.  `labelOf` maps
the cursor column to the label text the Go code picks there (supplied label
or generated fallback).  The Go loop terminates whenever `scale ≥ 1`; `fuel`
is any upper bound on the remaining iterations, and the non-overlap claim is
proved for every fuel. -/
def xLabelLoop (labelOf : ℤ → String) (scale innerMaxX : ℤ) :
    ℕ → ℤ → List (ℤ × ℕ)
  | 0, _ => []
  | fuel + 1, x =>
    if x < innerMaxX - 1 then
      (x, (labelOf x).length)
        :: xLabelLoop labelOf scale innerMaxX fuel
          (x + (((labelOf x).length : ℤ) + xAxisLabelsGap) * scale)
    else []

/-- Label choice of the `LineChart` x-axis loop (plot.go lines 228-235):
`index := int((x-(Inner.Min.X+yAxisLabelsWidth)-1)/(HorizontalScale) + 1)`
(Go integer division truncates: `Int.tdiv`), printed as a decimal unless a
supplied label exists at that index.  Go would panic on a negative index
inside the bounds check; a negative index is unreachable in the loop when
`scale ≥ 1`, and the fallback branch is used for it here. -/
def lineLabelAt (dataLabels : List String) (minX scale : ℤ) (x : ℤ) : String :=
  let index := (x - (minX + yAxisLabelsWidth) - 1).tdiv scale + 1
  if 0 ≤ index ∧ index < (dataLabels.length : ℤ) then
    dataLabels.getD index.toNat ""
  else toString index

/-- Label choice of the `ScatterPlot` x-axis loop (plot.go lines 220-227):
`index := (x - (Inner.Min.X+yAxisLabelsWidth)) / HorizontalScale`, a label
interpolated across the X bounds (the `fmt.Sprintf("%.02f", ...)` text is
abstracted as the arbitrary function `genLabel`, since the non-overlap claim
holds for every label text) unless a supplied label exists at that index. -/
def scatterLabelAt (dataLabels : List String) (genLabel : ℤ → String)
    (minX scale : ℤ) (x : ℤ) : String :=
  let index := (x - (minX + yAxisLabelsWidth)).tdiv scale
  if 0 ≤ index ∧ index < (dataLabels.length : ℤ) then
    dataLabels.getD index.toNat ""
  else genLabel index

/-- The `LineChart` x-axis labels of `plotAxes` (plot.go lines 214-241): the
first label (supplied label 0, or `"0"`) sits at `Inner.Min.X +
yAxisLabelsWidth`; the walk then starts at
`Inner.Min.X + yAxisLabelsWidth + (xAxisLabelsGap+len(firstLabel)-1)*scale + 1`. -/
def lineXLabels (dataLabels : List String) (minX innerMaxX scale : ℤ)
    (fuel : ℕ) : List (ℤ × ℕ) :=
  let firstLabel := match dataLabels with
    | [] => "0"
    | l :: _ => l
  (minX + yAxisLabelsWidth, firstLabel.length)
    :: xLabelLoop (lineLabelAt dataLabels minX scale) scale innerMaxX fuel
      (minX + yAxisLabelsWidth + (xAxisLabelsGap + (firstLabel.length : ℤ) - 1) * scale + 1)

/-- The `ScatterPlot` x-axis labels of `plotAxes` (plot.go lines 219-241):
the walk starts at `Inner.Min.X + yAxisLabelsWidth`. -/
def scatterXLabels (dataLabels : List String) (genLabel : ℤ → String)
    (minX innerMaxX scale : ℤ) (fuel : ℕ) : List (ℤ × ℕ) :=
  xLabelLoop (scatterLabelAt dataLabels genLabel minX scale) scale innerMaxX fuel
    (minX + yAxisLabelsWidth)

/-- The only widget state `plotAxes` mutates (plot.go lines 190-194): in
scatter mode it widens `XMinVal`/`XMaxVal` over `Data[0]`, panicking (error)
when `Data` is empty; in line mode it mutates nothing. -/
def plotAxesWidenX (p : Plot) : Except String Plot :=
  match p.plotKind with
  | PlotType.LineChart => Except.ok p
  | PlotType.ScatterPlot =>
    match p.Data with
    | [] => Except.error "index out of range"
    | xs :: _ =>
      Except.ok { p with
        XMinVal := xs.foldl (fun a x => min a (EFloat.ofQ x)) p.XMinVal,
        XMaxVal := xs.foldl (fun a x => max a (EFloat.ofQ x)) p.XMaxVal }

/-- The value-bound widening at the top of `Draw` (plot.go lines 247-251):
`MaxVal = MaxFloat64(MaxVal, currentMaxVal)`;
`MinVal = MinFloat64(currentMinVal, MinVal)`. -/
def drawWidenVals (p : Plot) : Plot :=
  { p with
    MaxVal := max p.MaxVal (GetMaxFloat64From2dSlice p.Data),
    MinVal := min (GetMinFloat64From2dSlice p.Data) p.MinVal }

/-- The widget-state transformation of one `Draw` call (plot.go lines
244-271): widen the value bounds, then, if axes are shown, run `plotAxes`
(whose only state effect is `plotAxesWidenX`).  The marker rendering that
follows mutates only the buffer, never the widget, so this is the complete
state effect of a redraw. -/
def drawBounds (p : Plot) : Except String Plot :=
  if (drawWidenVals p).ShowAxes then plotAxesWidenX (drawWidenVals p)
  else Except.ok (drawWidenVals p)

/-- One redraw with a freshly supplied dataset (§3: the dataset is supplied
by the caller each redraw). -/
def redrawWith (p : Plot) (data : List (List ℚ)) : Except String Plot :=
  drawBounds { p with Data := data }

/-- A sequence of redraw calls on the same widget, each with its own
dataset. -/
def redrawSeq (p : Plot) : List (List (List ℚ)) → Except String Plot
  | [] => Except.ok p
  | d :: ds =>
    match redrawWith p d with
    | Except.error e => Except.error e
    | Except.ok p' => redrawSeq p' ds

/-- Spec wording (§3, §4.1): the maximum element of a value list, as an
`EFloat` (`⊥` when the list is empty).  Used to compare the code's bound
updates against the spec's "union of prior bounds and the current dataset's
extrema". -/
def specListMax (vals : List ℚ) : EFloat :=
  vals.foldl (fun a v => max a (EFloat.ofQ v)) ⊥

/-- Spec wording (§3, §4.1): the minimum element of a value list, as an
`EFloat` (`⊤` when the list is empty). -/
def specListMin (vals : List ℚ) : EFloat :=
  vals.foldl (fun a v => min a (EFloat.ofQ v)) ⊤

/-- All values of a dataset, across series. -/
def valsOf (data : List (List ℚ)) : List ℚ := data.flatten

/-- Spec wording (C3): the sub-cell endpoint for sample index `j` with value
`v` is the coarse cell position multiplied by `(2, 4)`. -/
def braillePtOf (minX maxY scale : ℤ) (minVal maxVal : ℚ) (dy : ℤ)
    (j : ℤ) (v : ℚ) : Pt :=
  ⟨(minX + j * scale) * 2, (maxY - cellHeight minVal maxVal v dy - 1) * 4⟩

/-- The segments `renderBraille` actually produces for one series, expressed
sample-wise: segment `t` runs from the position of sample `max t 1` (not
sample `t`: the code seeds `previousHeight` from `line[1]`) to the position
of sample `t+1`. -/
def expectedSegs (minX maxY scale : ℤ) (minVal maxVal : ℚ) (dy : ℤ)
    (line : List ℚ) : List (Pt × Pt) :=
  (List.range (line.length - 1)).map fun (t : ℕ) =>
    (braillePtOf minX maxY scale minVal maxVal dy (t : ℤ) (line.getD (max t 1) 0),
     braillePtOf minX maxY scale minVal maxVal dy ((t : ℤ) + 1) (line.getD (t + 1) 0))

/-- Helper: a series with fewer than two samples makes `seriesSegs` panic. -/
theorem seriesSegs_short (minX maxY scale : ℤ) (minVal maxVal : ℚ) (dy : ℤ)
    (line : List ℚ) (h : line.length < 2) :
    seriesSegs minX maxY scale minVal maxVal dy line =
      Except.error "index out of range" := by
  match line with
  | [] => rfl
  | [_] => rfl
  | _ :: _ :: _ => simp at h; omega

/-- Helper: a series with at least two samples renders without a panic. -/
theorem seriesSegs_ok (minX maxY scale : ℤ) (minVal maxVal : ℚ) (dy : ℤ)
    (line : List ℚ) (h : 2 ≤ line.length) :
    ∃ L, seriesSegs minX maxY scale minVal maxVal dy line = Except.ok L := by
  match line with
  | [] => simp at h
  | [_] => simp at h
  | _ :: _ :: _ => exact ⟨_, rfl⟩

/-- Helper: `renderLineLoop` panics exactly when some series is short,
independent of the starting series index. -/
theorem renderLineLoop_cases (minX maxY scale : ℤ) (minVal maxVal : ℚ)
    (dy : ℤ) (colors : List Color) :
    ∀ (data : List (List ℚ)) (i : ℕ),
      ((∃ line ∈ data, line.length < 2) →
        renderLineLoop minX maxY scale minVal maxVal dy colors i data =
          Except.error "index out of range") ∧
      ((∀ line ∈ data, 2 ≤ line.length) →
        ∃ L, renderLineLoop minX maxY scale minVal maxVal dy colors i data =
          Except.ok L) := by
  intro data
  induction data with
  | nil =>
    intro i
    constructor
    · rintro ⟨line, hmem, -⟩
      simp at hmem
    · intro _
      exact ⟨[], rfl⟩
  | cons line rest ih =>
    intro i
    constructor
    · rintro ⟨bad, hmem, hlen⟩
      rcases List.mem_cons.mp hmem with hhd | htl
      · subst hhd
        rw [renderLineLoop, seriesSegs_short minX maxY scale minVal maxVal dy _ hlen]
      · by_cases hline : line.length < 2
        · rw [renderLineLoop, seriesSegs_short minX maxY scale minVal maxVal dy _ hline]
        · obtain ⟨segs, hsegs⟩ :=
            seriesSegs_ok minX maxY scale minVal maxVal dy line (by omega)
          rw [renderLineLoop, hsegs, (ih (i + 1)).1 ⟨bad, htl, hlen⟩]
    · intro hall
      obtain ⟨segs, hsegs⟩ :=
        seriesSegs_ok minX maxY scale minVal maxVal dy line
          (hall line (List.mem_cons_self ..))
      obtain ⟨L, hL⟩ := (ih (i + 1)).2 fun l hl => hall l (List.mem_cons_of_mem _ hl)
      rw [renderLineLoop, hsegs, hL]
      exact ⟨_, rfl⟩

/-- C10: in line mode with the braille marker the renderer reads sample
index 1 of every series, so it panics (out-of-range access, modelled as an
error) whenever some series has length 0 or 1, and only renders without a
panic when every series has at least 2 samples. -/
theorem C10_line_braille_needs_two_samples (minX maxY scale : ℤ)
    (minVal maxVal : ℚ) (dy : ℤ) (colors : List Color)
    (data : List (List ℚ)) :
    ((∃ line ∈ data, line.length < 2) →
      renderBrailleLine minX maxY scale minVal maxVal dy colors data =
        Except.error "index out of range") ∧
    ((∀ line ∈ data, 2 ≤ line.length) →
      ∃ L, renderBrailleLine minX maxY scale minVal maxVal dy colors data =
        Except.ok L) :=
  renderLineLoop_cases minX maxY scale minVal maxVal dy colors data 0

/-- C10 witness: the dataset `[[1]]` (one series with a single sample)
makes the braille line renderer panic, and the dataset `[[1,2]]` renders. -/
theorem C10_line_braille_needs_two_samples_witness :
    (renderBrailleLine 0 4 1 0 3 4 [7] [[1]] =
      Except.error "index out of range") ∧
    (∃ L, renderBrailleLine 0 4 1 0 3 4 [7] [[1, 2]] = Except.ok L) :=
  ⟨(C10_line_braille_needs_two_samples 0 4 1 0 3 4 [7] [[1]]).1
      ⟨[1], by simp, by simp⟩,
   (C10_line_braille_needs_two_samples 0 4 1 0 3 4 [7] [[1, 2]]).2
      (by intro l hl; simp at hl; simp [hl])⟩

/-- C1: `Draw` performs no validation of the scatter series count and
returns no error value.  With one nonempty series the braille scatter
renderer panics with an out-of-range access on `Data[1]`; with one empty
series it silently renders nothing; with three series it silently renders
using the first two.  In no case is a configuration error reported before
drawing. -/
theorem C1_scatter_no_validation :
    renderBrailleScatter 0 4 1 0 1 0 1 3 4 [7] [[0]] =
      Except.error "index out of range" ∧
    renderBrailleScatter 0 4 1 0 1 0 1 3 4 [7] [[]] = Except.ok [] ∧
    renderBrailleScatter 0 4 1 0 1 0 1 3 4 [7] [[0], [1], [2]] =
      Except.ok [(⟨0, 0⟩, 7)] := by
  refine ⟨rfl, rfl, ?_⟩
  norm_num [renderBrailleScatter, scatterLoop, cellHeight, goTrunc, MaxFloat64,
    SelectColor]

/-- C9: whenever `maxVal - minVal < 1` the clamp makes the divisor exactly 1,
so the height mapping computes `goTrunc ((y - minVal) / 1 * (dy - 1))`; the
mapping is a total function (it is defined for all inputs, including
`maxVal = minVal`). -/
theorem C9_degenerate_range_divisor_one (minVal maxVal y : ℚ) (dy : ℤ)
    (h : maxVal - minVal < 1) :
    MaxFloat64 1 (maxVal - minVal) = 1 ∧
    cellHeight minVal maxVal y dy =
      goTrunc ((y - minVal) / 1 * ((dy - 1 : ℤ) : ℚ)) := by
  have hmax : MaxFloat64 1 (maxVal - minVal) = 1 := max_eq_left h.le
  exact ⟨hmax, by rw [cellHeight, hmax]⟩

/-- C9 witness: equal bounds (`maxVal = minVal = 0`). -/
theorem C9_degenerate_range_divisor_one_witness :
    MaxFloat64 1 ((0 : ℚ) - 0) = 1 ∧
    cellHeight 0 0 5 3 = goTrunc (((5 : ℚ) - 0) / 1 * ((3 - 1 : ℤ) : ℚ)) :=
  C9_degenerate_range_divisor_one 0 0 5 3 (by norm_num)

/-- C5: a value equal to `boundsMin` always maps to cell height 0, and a
value equal to `boundsMax` maps to `drawAreaHeight - 1` provided the range
is at least one unit (the clamp divisor equals the range). -/
theorem C5_boundary_mapping (minVal maxVal : ℚ) (dy : ℤ)
    (h : minVal < maxVal) :
    cellHeight minVal maxVal minVal dy = 0 ∧
    (1 ≤ maxVal - minVal → cellHeight minVal maxVal maxVal dy = dy - 1) := by
  constructor
  · simp [cellHeight, goTrunc]
  · intro h1
    rw [cellHeight, goTrunc, MaxFloat64, max_eq_right h1,
      div_self (by linarith), one_mul]
    split
    · exact Int.floor_intCast _
    · exact Int.ceil_intCast _

/-- C5 counterexample: with `boundsMin = 0 < boundsMax = 1/2` and draw-area
height 5, the maximum maps to cell height 2, not `5 - 1 = 4`: the clamp
divides by 1 instead of the sub-unit range, so the claim fails for bounds
whose range is below one unit. -/
theorem C5_boundary_mapping_counterexample :
    (0 : ℚ) < 1 / 2 ∧ cellHeight 0 (1 / 2) (1 / 2) 5 = 2 ∧ (2 : ℤ) ≠ 5 - 1 := by
  refine ⟨by norm_num, ?_, by decide⟩
  norm_num [cellHeight, goTrunc, MaxFloat64]

/-- C5 witness: bounds `0 < 2` of range at least one, draw-area height 5. -/
theorem C5_boundary_mapping_witness :
    cellHeight 0 2 0 5 = 0 ∧
    (1 ≤ (2 : ℚ) - 0 → cellHeight 0 2 2 5 = 5 - 1) :=
  C5_boundary_mapping 0 2 5 (by norm_num)

/-- Helper: folding `min` from an arbitrary accumulator equals `min` of the
accumulator with the list minimum. -/
theorem foldlMin_eq : ∀ (xs : List ℚ) (b : EFloat),
    xs.foldl (fun a x => min a (EFloat.ofQ x)) b = min b (specListMin xs)
  | [], b => by simp [specListMin]
  | x :: xs, b => by
    simp only [List.foldl_cons, specListMin]
    rw [foldlMin_eq xs (min b (EFloat.ofQ x)),
      foldlMin_eq xs (min ⊤ (EFloat.ofQ x)), min_top_left, min_assoc]

/-- Helper: folding `max` from an arbitrary accumulator equals `max` of the
accumulator with the list maximum. -/
theorem foldlMax_eq : ∀ (xs : List ℚ) (b : EFloat),
    xs.foldl (fun a x => max a (EFloat.ofQ x)) b = max b (specListMax xs)
  | [], b => by simp [specListMax]
  | x :: xs, b => by
    simp only [List.foldl_cons, specListMax]
    rw [foldlMax_eq xs (max b (EFloat.ofQ x)),
      foldlMax_eq xs (max ⊥ (EFloat.ofQ x)), max_bot_left, max_assoc]

/-- Helper: the modelled 2d minimum is the minimum over all values. -/
theorem GetMin2d_eq (data : List (List ℚ)) :
    GetMinFloat64From2dSlice data = specListMin (valsOf data) :=
  (List.foldl_flatten ..).symm

/-- Helper: the modelled 2d maximum is the maximum over all values. -/
theorem GetMax2d_eq (data : List (List ℚ)) :
    GetMaxFloat64From2dSlice data = specListMax (valsOf data) :=
  (List.foldl_flatten ..).symm

/-- Helper: `plotAxesWidenX` never touches the value bounds. -/
theorem plotAxesWidenX_vals (p p' : Plot) (h : plotAxesWidenX p = Except.ok p') :
    p'.MinVal = p.MinVal ∧ p'.MaxVal = p.MaxVal := by
  unfold plotAxesWidenX at h
  split at h
  · injection h with h
    subst h
    exact ⟨rfl, rfl⟩
  · split at h
    · simp at h
    · injection h with h
      subst h
      exact ⟨rfl, rfl⟩

/-- C4: a redraw whose dataset contains no values leaves `MinVal` and
`MaxVal` unchanged (in particular, the infinite sentinels persist while no
data has ever been supplied). -/
theorem C4_empty_dataset_noop (p : Plot) (h : ∀ line ∈ p.Data, line = []) :
    (drawWidenVals p).MinVal = p.MinVal ∧
    (drawWidenVals p).MaxVal = p.MaxVal ∧
    ∀ p', drawBounds p = Except.ok p' →
      p'.MinVal = p.MinVal ∧ p'.MaxVal = p.MaxVal := by
  have hflat : valsOf p.Data = [] := by
    simp only [valsOf, List.flatten_eq_nil_iff]
    exact h
  have hmin : (drawWidenVals p).MinVal = p.MinVal := by
    simp [drawWidenVals, GetMin2d_eq, hflat, specListMin, min_top_left]
  have hmax : (drawWidenVals p).MaxVal = p.MaxVal := by
    simp [drawWidenVals, GetMax2d_eq, hflat, specListMax, max_bot_left]
  refine ⟨hmin, hmax, fun p' hp' => ?_⟩
  unfold drawBounds at hp'
  split at hp'
  · obtain ⟨h1, h2⟩ := plotAxesWidenX_vals _ _ hp'
    exact ⟨h1.trans hmin, h2.trans hmax⟩
  · injection hp' with hp'
    subst hp'
    exact ⟨hmin, hmax⟩

/-- C4 witness: the freshly constructed widget redrawn with an empty
dataset keeps the `+Inf`/`-Inf` sentinels. -/
theorem C4_empty_dataset_noop_witness :
    (drawWidenVals NewPlot).MinVal = NewPlot.MinVal ∧
    (drawWidenVals NewPlot).MaxVal = NewPlot.MaxVal ∧
    ∀ p', drawBounds NewPlot = Except.ok p' →
      p'.MinVal = NewPlot.MinVal ∧ p'.MaxVal = NewPlot.MaxVal :=
  C4_empty_dataset_noop NewPlot (by simp [NewPlot])

/-- Helper: one `drawBounds` step never raises `MinVal` and never lowers
`MaxVal`. -/
theorem drawBounds_mono (p p' : Plot) (h : drawBounds p = Except.ok p') :
    p'.MinVal ≤ p.MinVal ∧ p.MaxVal ≤ p'.MaxVal := by
  have hmin : (drawWidenVals p).MinVal ≤ p.MinVal := by
    simp only [drawWidenVals]
    exact min_le_right _ _
  have hmax : p.MaxVal ≤ (drawWidenVals p).MaxVal := by
    simp only [drawWidenVals]
    exact le_max_left _ _
  unfold drawBounds at h
  split at h
  · obtain ⟨h1, h2⟩ := plotAxesWidenX_vals _ _ h
    exact ⟨h1.le.trans hmin, hmax.trans h2.ge⟩
  · injection h with h
    subst h
    exact ⟨hmin, hmax⟩

/-- Helper: monotonicity across a whole redraw sequence. -/
theorem redrawSeq_mono : ∀ (ds : List (List (List ℚ))) (p p' : Plot),
    redrawSeq p ds = Except.ok p' →
    p'.MinVal ≤ p.MinVal ∧ p.MaxVal ≤ p'.MaxVal
  | [], p, p', h => by
    rw [redrawSeq] at h
    injection h with h
    subst h
    exact ⟨le_refl _, le_refl _⟩
  | d :: ds, p, p', h => by
    rw [redrawSeq] at h
    cases hr : redrawWith p d with
    | error e => rw [hr] at h; simp at h
    | ok p1 =>
      rw [hr] at h
      obtain ⟨h1, h2⟩ := redrawSeq_mono ds p1 p' h
      obtain ⟨h3, h4⟩ := drawBounds_mono _ _ hr
      exact ⟨h1.trans h3, h4.trans h2⟩

/-- C6: across any sequence of redraw calls on the same widget, `MinVal` is
non-increasing and `MaxVal` is non-decreasing — both from one call to the
next and across the whole sequence. -/
theorem C6_bounds_monotone :
    (∀ (p : Plot) (d : List (List ℚ)) (p' : Plot),
      redrawWith p d = Except.ok p' →
      p'.MinVal ≤ p.MinVal ∧ p.MaxVal ≤ p'.MaxVal) ∧
    (∀ (ds : List (List (List ℚ))) (p p' : Plot),
      redrawSeq p ds = Except.ok p' →
      p'.MinVal ≤ p.MinVal ∧ p.MaxVal ≤ p'.MaxVal) :=
  ⟨fun p d p' h => drawBounds_mono { p with Data := d } p' h, redrawSeq_mono⟩

/-- C6 witness: one redraw of the fresh widget with dataset `[[1,2]]`. -/
theorem C6_bounds_monotone_witness :
    ({ NewPlot with
        Data := [[1, 2]]
        MinVal := EFloat.ofQ 1
        MaxVal := EFloat.ofQ 2 } : Plot).MinVal ≤ NewPlot.MinVal ∧
    NewPlot.MaxVal ≤
      ({ NewPlot with
          Data := [[1, 2]]
          MinVal := EFloat.ofQ 1
          MaxVal := EFloat.ofQ 2 } : Plot).MaxVal :=
  C6_bounds_monotone.1 NewPlot [[1, 2]] _ rfl

/-- C2 counterexample: a scatter widget redrawn with axes hidden
(`ShowAxes = false`) and dataset X-series `[5]` keeps `XMinVal = +Inf`
instead of the union `min(+Inf, 5) = 5`: the horizontal bounds are only
widened inside `plotAxes`, which is skipped when axes are hidden. -/
theorem C2_counterexample :
    drawBounds { NewPlot with
        Data := [[5], [7]]
        ShowAxes := false
        plotKind := PlotType.ScatterPlot } =
      Except.ok { NewPlot with
        Data := [[5], [7]]
        ShowAxes := false
        plotKind := PlotType.ScatterPlot
        MinVal := EFloat.ofQ 5
        MaxVal := EFloat.ofQ 7 } ∧
    (⊤ : EFloat) ≠ min (⊤ : EFloat) (specListMin [(5 : ℚ)]) :=
  ⟨rfl, by decide⟩

/-- C2 (amended): after a redraw the value bounds are the union of the prior
bounds and the dataset extrema; the horizontal-domain bounds are widened to
the union with the X-series extrema only in scatter mode with axes shown,
and are left unchanged when `ShowAxes` is false or in line mode. -/
theorem C2_bounds_union (p p' : Plot) (h : drawBounds p = Except.ok p') :
    p'.MinVal = min p.MinVal (specListMin (valsOf p.Data)) ∧
    p'.MaxVal = max p.MaxVal (specListMax (valsOf p.Data)) ∧
    (p.ShowAxes = false → p'.XMinVal = p.XMinVal ∧ p'.XMaxVal = p.XMaxVal) ∧
    (p.plotKind = PlotType.LineChart →
      p'.XMinVal = p.XMinVal ∧ p'.XMaxVal = p.XMaxVal) ∧
    (p.ShowAxes = true → p.plotKind = PlotType.ScatterPlot →
      p'.XMinVal = min p.XMinVal (specListMin (p.Data.headD [])) ∧
      p'.XMaxVal = max p.XMaxVal (specListMax (p.Data.headD []))) := by
  obtain ⟨data, dls, maxv, minv, xmaxv, xminv, lc, sa, mk, kind, hsc⟩ := p
  cases sa <;> cases kind <;>
    simp only [drawBounds, drawWidenVals, plotAxesWidenX] at h
  · injection h with h
    subst h
    refine ⟨?_, ?_, fun _ => ⟨rfl, rfl⟩, fun _ => ⟨rfl, rfl⟩, fun hfalse _ => ?_⟩
    · simp [GetMin2d_eq, min_comm]
    · simp [GetMax2d_eq, max_comm, max_bot_left]
    · cases hfalse
  · injection h with h
    subst h
    refine ⟨?_, ?_, fun _ => ⟨rfl, rfl⟩, fun hline => ?_, fun hfalse _ => ?_⟩
    · simp [GetMin2d_eq, min_comm]
    · simp [GetMax2d_eq, max_comm, max_bot_left]
    · cases hline
    · cases hfalse
  · injection h with h
    subst h
    refine ⟨?_, ?_, fun hfalse => ?_, fun _ => ⟨rfl, rfl⟩, fun _ hscatter => ?_⟩
    · simp [GetMin2d_eq, min_comm]
    · simp [GetMax2d_eq, max_comm, max_bot_left]
    · cases hfalse
    · cases hscatter
  · cases data with
    | nil => simp at h
    | cons xs rest =>
      injection h with h
      subst h
      refine ⟨?_, ?_, fun hfalse => ?_, fun hline => ?_, fun _ _ => ⟨?_, ?_⟩⟩
      · simp [GetMin2d_eq, min_comm]
      · simp [GetMax2d_eq, max_comm, max_bot_left]
      · cases hfalse
      · cases hline
      · simpa using foldlMin_eq xs xminv
      · simpa using foldlMax_eq xs xmaxv

/-- Input of the C2 witness: a fresh scatter widget (axes shown) redrawn
with dataset `[[1,2],[3]]`. -/
def c2WitnessPlot : Plot :=
  { NewPlot with Data := [[1, 2], [3]], plotKind := PlotType.ScatterPlot }

/-- State of the C2 witness widget after the redraw. -/
def c2WitnessPlotAfter : Plot :=
  { c2WitnessPlot with
      MinVal := EFloat.ofQ 1
      MaxVal := EFloat.ofQ 3
      XMinVal := EFloat.ofQ 1
      XMaxVal := EFloat.ofQ 2 }

/-- C2 witness: the amended union property at a concrete scatter redraw. -/
theorem C2_bounds_union_witness :
    c2WitnessPlotAfter.MinVal =
      min c2WitnessPlot.MinVal (specListMin (valsOf c2WitnessPlot.Data)) ∧
    c2WitnessPlotAfter.MaxVal =
      max c2WitnessPlot.MaxVal (specListMax (valsOf c2WitnessPlot.Data)) ∧
    (c2WitnessPlot.ShowAxes = false →
      c2WitnessPlotAfter.XMinVal = c2WitnessPlot.XMinVal ∧
      c2WitnessPlotAfter.XMaxVal = c2WitnessPlot.XMaxVal) ∧
    (c2WitnessPlot.plotKind = PlotType.LineChart →
      c2WitnessPlotAfter.XMinVal = c2WitnessPlot.XMinVal ∧
      c2WitnessPlotAfter.XMaxVal = c2WitnessPlot.XMaxVal) ∧
    (c2WitnessPlot.ShowAxes = true →
      c2WitnessPlot.plotKind = PlotType.ScatterPlot →
      c2WitnessPlotAfter.XMinVal =
        min c2WitnessPlot.XMinVal (specListMin (c2WitnessPlot.Data.headD [])) ∧
      c2WitnessPlotAfter.XMaxVal =
        max c2WitnessPlot.XMaxVal (specListMax (c2WitnessPlot.Data.headD []))) :=
  C2_bounds_union c2WitnessPlot c2WitnessPlotAfter rfl

/-- Helper: closed form of the braille line inner loop, with the running
`previousHeight` seeded from an arbitrary previous value `prev`. -/
theorem segsLoop_eq (minX maxY scale : ℤ) (minVal maxVal : ℚ) (dy : ℤ) :
    ∀ (l : List ℚ) (j : ℕ) (prev : ℚ),
      segsLoop minX maxY scale minVal maxVal dy j
        (cellHeight minVal maxVal prev dy) l =
      (List.range l.length).map fun (t : ℕ) =>
        (braillePtOf minX maxY scale minVal maxVal dy ((j : ℤ) + t)
          (if t = 0 then prev else l.getD (t - 1) 0),
         braillePtOf minX maxY scale minVal maxVal dy ((j : ℤ) + t + 1)
           (l.getD t 0))
  | [], j, prev => by simp [segsLoop]
  | val :: rest, j, prev => by
    simp only [segsLoop, List.length_cons, List.range_succ_eq_map,
      List.map_cons, List.map_map]
    congr 1
    rw [segsLoop_eq minX maxY scale minVal maxVal dy rest (j + 1) val]
    apply List.map_congr_left
    intro t ht
    cases t with
    | zero =>
      simp only [Function.comp_apply, List.tail_cons, braillePtOf,
        Nat.succ_eq_add_one, if_true]
      rw [if_neg (by omega)]
      simp only [Nat.add_sub_cancel, List.getD_cons_zero, List.getD_cons_succ,
        Prod.mk.injEq, Pt.mk.injEq]
      refine ⟨⟨?_, ?_⟩, ?_, ?_⟩ <;> push_cast <;> ring_nf
    | succ n =>
      simp only [Function.comp_apply, List.tail_cons, braillePtOf]
      rw [if_neg (by omega), if_neg (by omega)]
      simp only [Nat.add_sub_cancel, Nat.succ_sub_one, Nat.succ_eq_add_one,
        List.getD_cons_succ, Prod.mk.injEq, Pt.mk.injEq]
      refine ⟨⟨?_, ?_⟩, ?_, ?_⟩ <;> push_cast <;> ring_nf

/-- C3 (amended): in line mode with the braille marker, each series of at
least two samples yields exactly `expectedSegs`: segment `t` for `t ≥ 1`
joins the sub-cell positions of samples `t` and `t+1` (coarse positions
times `(2,4)`), but segment 0 joins the x-positions of samples 0 and 1 with
both endpoints at the height of sample 1, because `previousHeight` is seeded
from `line[1]`, not `line[0]`. -/
theorem C3_line_braille_segments (minX maxY scale : ℤ) (minVal maxVal : ℚ)
    (dy : ℤ) (line : List ℚ) (h : 2 ≤ line.length) :
    seriesSegs minX maxY scale minVal maxVal dy line =
      Except.ok (expectedSegs minX maxY scale minVal maxVal dy line) := by
  match line, h with
  | v0 :: v1 :: rest, _ =>
    simp only [seriesSegs]
    congr 1
    rw [segsLoop_eq minX maxY scale minVal maxVal dy (v1 :: rest) 0 v1]
    unfold expectedSegs
    simp only [List.length_cons, Nat.add_sub_cancel]
    apply List.map_congr_left
    intro t ht
    cases t with
    | zero =>
      simp [braillePtOf]
    | succ n =>
      have hmax : max (n + 1) 1 = n + 1 := by omega
      simp only [hmax, braillePtOf]
      rw [if_neg (by omega)]
      simp only [Nat.add_sub_cancel, List.getD_cons_succ, Prod.mk.injEq,
        Pt.mk.injEq]
      refine ⟨⟨?_, ?_⟩, ?_, ?_⟩ <;> push_cast <;> ring_nf

/-- C3 counterexample: series `[0, 3]` with bounds `0..3` and draw area
`minX = 0`, `maxY = 4`, `dy = 4`: the single segment produced starts at
sub-cell point `(0, 0)` — the height of sample 1 — whereas the coarse
position of sample 0 multiplied by `(2, 4)` is `(0, 12)`.  The first
segment does not start at sample 0's position. -/
theorem C3_counterexample :
    seriesSegs 0 4 1 0 3 4 [0, 3] =
      Except.ok [(⟨0, 0⟩, ⟨2, 0⟩)] ∧
    (⟨0, 0⟩ : Pt) ≠ braillePtOf 0 4 1 0 3 4 0 0 := by
  constructor
  · norm_num [seriesSegs, segsLoop, cellHeight, goTrunc, MaxFloat64]
  · norm_num [braillePtOf, cellHeight, goTrunc, MaxFloat64, Pt.mk.injEq]

/-- C3 witness: the amended statement at the concrete series `[0, 3]`. -/
theorem C3_line_braille_segments_witness :
    seriesSegs 0 4 1 0 3 4 [0, 3] =
      Except.ok (expectedSegs 0 4 1 0 3 4 [0, 3]) :=
  C3_line_braille_segments 0 4 1 0 3 4 [0, 3] (by simp)

/-- Helper: complete characterization of the y-label loop output, for any
fuel that exceeds the remaining iteration count. -/
theorem yLabelLoop_mem (minVal vs : ℚ) (innerDy innerMaxY : ℤ) :
    ∀ (fuel : ℕ) (i k : ℤ) (v : ℚ) (y : ℤ),
      innerDy - 1 - i * (yAxisLabelsGap + 1) ≤ (yAxisLabelsGap + 1) * fuel →
      ((k, v, y) ∈ yLabelLoop minVal vs innerDy innerMaxY fuel i ↔
        (i ≤ k ∧ k * (yAxisLabelsGap + 1) < innerDy - 1 ∧
         v = (k : ℚ) * vs * (((yAxisLabelsGap : ℤ) : ℚ) + 1) + minVal ∧
         y = innerMaxY - k * (yAxisLabelsGap + 1) - 2))
  | 0, i, k, v, y => fun hfuel => by
    simp only [yLabelLoop, List.not_mem_nil, false_iff, not_and]
    intro h1 h2
    simp only [yAxisLabelsGap] at hfuel h2
    omega
  | fuel + 1, i, k, v, y => fun hfuel => by
    rw [yLabelLoop]
    by_cases hc : i * (yAxisLabelsGap + 1) < innerDy - 1
    · rw [if_pos hc, List.mem_cons,
        yLabelLoop_mem minVal vs innerDy innerMaxY fuel (i + 1) k v y
          (by simp only [yAxisLabelsGap] at hfuel hc ⊢; omega)]
      constructor
      · rintro (heq | ⟨h1, h2, h3, h4⟩)
        · rw [Prod.mk.injEq, Prod.mk.injEq] at heq
          obtain ⟨hk, hv, hy⟩ := heq
          subst hk
          exact ⟨le_refl _, hc, hv, hy⟩
        · exact ⟨by omega, h2, h3, h4⟩
      · rintro ⟨h1, h2, h3, h4⟩
        rcases eq_or_lt_of_le h1 with heq | hlt
        · left
          subst heq
          rw [Prod.mk.injEq, Prod.mk.injEq]
          exact ⟨rfl, h3, h4⟩
        · right
          exact ⟨by omega, h2, h3, h4⟩
    · rw [if_neg hc]
      simp only [List.not_mem_nil, false_iff, not_and]
      intro h1 h2
      simp only [yAxisLabelsGap] at hc h2
      omega

/-- C7 (amended): when axes are shown, `plotAxes` emits a y-label for a row
index `k` exactly when `k * (yAxisLabelsGap+1) < Inner.Dy() - 1` — one row
more than the draw-area row count `Inner.Dy() - xAxisLabelsHeight - 1` used
as the scale divisor — with value
`boundsMin + k*(yAxisLabelsGap+1)*verticalScale`,
`verticalScale = (boundsMax-boundsMin)/(Inner.Dy()-xAxisLabelsHeight-1)`,
placed bottom-to-top at row `Inner.Max.Y - k*(yAxisLabelsGap+1) - 2`.  The
hypothesis `innerDy ≠ 2` excludes the height at which the Go code would
divide by zero in floating point (the rational model is exact).  The
two-decimal text formatting of the emitted value is not modelled. -/
theorem C7_yaxis_labels (minVal maxVal : ℚ) (innerDy innerMaxY : ℤ)
    (_hDy : innerDy ≠ 2) (k : ℤ) (v : ℚ) (y : ℤ) :
    (k, v, y) ∈ yAxisLabels minVal maxVal innerDy innerMaxY ↔
      (0 ≤ k ∧ k * (yAxisLabelsGap + 1) < innerDy - 1 ∧
       v = minVal + (k : ℚ) * (((yAxisLabelsGap : ℤ) : ℚ) + 1) *
         ((maxVal - minVal) / ((innerDy - xAxisLabelsHeight - 1 : ℤ) : ℚ)) ∧
       y = innerMaxY - k * (yAxisLabelsGap + 1) - 2) := by
  rw [yAxisLabels,
    yLabelLoop_mem minVal _ innerDy innerMaxY _ 0 k v y
      (by simp only [yAxisLabelsGap]; omega)]
  constructor <;> rintro ⟨h1, h2, h3, h4⟩ <;>
    exact ⟨h1, h2, by rw [h3]; ring, h4⟩

/-- C7 counterexample: `Inner.Dy() = 4` gives a draw-area row count of 2, so
the claim allows only `k = 0`; yet the code emits a label for `k = 1`
(value 10 for bounds `0..10`, at row 6 for `Inner.Max.Y = 10`), since its
loop bound is `Inner.Dy() - 1 = 3`, not the draw-area row count. -/
theorem C7_counterexample :
    ((1 : ℤ), (10 : ℚ), (6 : ℤ)) ∈ yAxisLabels 0 10 4 10 ∧
    ¬((1 : ℤ) * (yAxisLabelsGap + 1) < 4 - xAxisLabelsHeight - 1) := by
  constructor
  · norm_num [yAxisLabels, yLabelLoop, yAxisLabelsGap, xAxisLabelsHeight]
  · norm_num [yAxisLabelsGap, xAxisLabelsHeight]

/-- C7 witness: the label `(k, value, row) = (0, 0, 8)` is emitted for
bounds `0..10` and `Inner.Dy() = 4`, `Inner.Max.Y = 10`. -/
theorem C7_yaxis_labels_witness :
    ((0 : ℤ), (0 : ℚ), (8 : ℤ)) ∈ yAxisLabels 0 10 4 10 :=
  (C7_yaxis_labels 0 10 4 10 (by decide) 0 0 8).mpr
    ⟨by decide, by decide,
     by norm_num [yAxisLabelsGap, xAxisLabelsHeight], by decide⟩

/-- Spec wording (§8): an x-label placement `b` keeps clear of the label
`a` before it when `b`'s start column is at least `a`'s end column
(start plus width) plus the configured gap. -/
def spacedAfter (a b : ℤ × ℕ) : Prop :=
  a.1 + (a.2 : ℤ) + xAxisLabelsGap ≤ b.1

/-- Helper: the first placement emitted by the x-label walk starts at the
cursor column it was started from. -/
theorem xLabelLoop_head (labelOf : ℤ → String) (scale innerMaxX : ℤ) :
    ∀ (fuel : ℕ) (x : ℤ) (p : ℤ × ℕ) (l : List (ℤ × ℕ)),
      xLabelLoop labelOf scale innerMaxX fuel x = p :: l → p.1 = x
  | 0, x, p, l => by
    intro h
    simp [xLabelLoop] at h
  | fuel + 1, x, p, l => by
    intro h
    rw [xLabelLoop] at h
    split at h
    · injection h with h1 h2
      rw [← h1]
    · simp at h

/-- Helper: any placement `prev` whose end column plus gap is at most the
walk start `x` is spaced before the walk head. -/
theorem xLabelLoop_head_spaced (labelOf : ℤ → String) (scale innerMaxX : ℤ)
    (prev : ℤ × ℕ) (fuel : ℕ) (x : ℤ)
    (hle : prev.1 + (prev.2 : ℤ) + xAxisLabelsGap ≤ x) :
    ∀ b ∈ (xLabelLoop labelOf scale innerMaxX fuel x).head?, spacedAfter prev b := by
  intro b hb
  cases hl : xLabelLoop labelOf scale innerMaxX fuel x with
  | nil => rw [hl] at hb; simp at hb
  | cons p l =>
    rw [hl] at hb
    simp only [List.head?_cons, Option.mem_def, Option.some.injEq] at hb
    have hp := xLabelLoop_head labelOf scale innerMaxX fuel x p l hl
    rw [spacedAfter, ← hb, hp]
    exact hle

/-- Helper: every output of the x-label walk is non-overlapping, for every
fuel, whenever the horizontal scale is at least 1. -/
theorem xLabelLoop_chain (labelOf : ℤ → String) (scale innerMaxX : ℤ)
    (hs : 1 ≤ scale) :
    ∀ (fuel : ℕ) (x : ℤ),
      List.Chain' spacedAfter (xLabelLoop labelOf scale innerMaxX fuel x)
  | 0, x => by simp [xLabelLoop]
  | fuel + 1, x => by
    rw [xLabelLoop]
    split
    · rw [List.chain'_cons']
      refine ⟨?_, xLabelLoop_chain labelOf scale innerMaxX hs fuel _⟩
      apply xLabelLoop_head_spaced
      have h0 : (0 : ℤ) ≤ ((labelOf x).length : ℤ) + xAxisLabelsGap := by
        have := Int.natCast_nonneg (labelOf x).length
        simp only [xAxisLabelsGap]
        omega
      have hmul : ((labelOf x).length : ℤ) + xAxisLabelsGap ≤
          (((labelOf x).length : ℤ) + xAxisLabelsGap) * scale :=
        le_mul_of_one_le_right h0 hs
      simp only
      omega
    · exact List.chain'_nil

/-- Helper: a first label of width `n0` at column `base` followed by the
x-label walk started at `base + (xAxisLabelsGap + n0 - 1) * scale + 1` is
non-overlapping (the line-chart layout). -/
theorem firstCons_chain (labelOf : ℤ → String) (scale innerMaxX : ℤ)
    (hs : 1 ≤ scale) (base : ℤ) (n0 : ℕ) (fuel : ℕ) :
    List.Chain' spacedAfter ((base, n0) ::
      xLabelLoop labelOf scale innerMaxX fuel
        (base + (xAxisLabelsGap + (n0 : ℤ) - 1) * scale + 1)) := by
  rw [List.chain'_cons']
  refine ⟨?_, xLabelLoop_chain labelOf scale innerMaxX hs fuel _⟩
  apply xLabelLoop_head_spaced
  simp only
  have h0 : (0 : ℤ) ≤ (n0 : ℤ) + 1 := by
    have := Int.natCast_nonneg n0
    omega
  have hmul : (n0 : ℤ) + 1 ≤ ((n0 : ℤ) + 1) * scale := le_mul_of_one_le_right h0 hs
  have hrw : (xAxisLabelsGap + (n0 : ℤ) - 1) * scale = ((n0 : ℤ) + 1) * scale := by
    simp only [xAxisLabelsGap]
    ring
  rw [hrw]
  simp only [xAxisLabelsGap]
  omega

/-- C8: in both chart kinds, every x-axis label placement starts at least at
the previous label's end column plus the configured gap, for every positive
integer horizontal scale, all supplied label texts, and every generated
label text (the scatter fallback `genLabel` is arbitrary). -/
theorem C8_xaxis_labels_no_overlap (scale : ℤ) (hs : 1 ≤ scale)
    (minX innerMaxX : ℤ) (dataLabels : List String) (genLabel : ℤ → String)
    (fuel : ℕ) :
    List.Chain' spacedAfter (lineXLabels dataLabels minX innerMaxX scale fuel) ∧
    List.Chain' spacedAfter
      (scatterXLabels dataLabels genLabel minX innerMaxX scale fuel) := by
  constructor
  · cases dataLabels with
    | nil =>
      simp only [lineXLabels]
      exact firstCons_chain _ scale innerMaxX hs _ _ fuel
    | cons l ls =>
      simp only [lineXLabels]
      exact firstCons_chain _ scale innerMaxX hs _ _ fuel
  · rw [scatterXLabels]
    exact xLabelLoop_chain _ scale innerMaxX hs fuel _

/-- C8 witness: a concrete layout — scale 1, gutter at column 0, right edge
12, one supplied label, decimal fallback labels. -/
theorem C8_xaxis_labels_no_overlap_witness :
    List.Chain' spacedAfter (lineXLabels ["ab"] 0 12 1 8) ∧
    List.Chain' spacedAfter (scatterXLabels ["ab"] toString 0 12 1 8) :=
  C8_xaxis_labels_no_overlap 1 (by decide) 0 12 ["ab"] toString 8
